import Mathlib

/-!
Verification development for the ScaleFT audit-events Splunk modular input
(`bin/app/sft-audit-events.js`).  The source file contains two revisions of
the script; the second (current) revision — the one with the `after_time`
query parameter, the `timestamp.toString()` checkpoint write, the
`new Date(...)` checkpoint load, and the `60 * 60 * 1000` token expiry — is
the authoritative code and is what is embedded here.  The first (old)
revision is referenced only in comments where a claim mentions it.

The embedding is shallow: JavaScript objects become ordered association
lists with property-set semantics, JS `Date`/number/`null` values flowing
through `lastIndexTime` become the `JsTime` sum type, instants are epoch
milliseconds as `Int`, and a thrown `TypeError` (calling `.getTime()` on a
number or on `null`) is modelled explicitly.
-/

namespace SftAudit

/-- A JS object is an ordered list of properties.  Property assignment
`o[k] = v` overwrites the value in place when the key is present (keys are
unique in every object the script builds) and appends otherwise, matching
JS property insertion order. -/
def jsSet {α : Type} : List (String × α) → String → α → List (String × α)
  | [], k, v => [(k, v)]
  | p :: rest, k, v => if p.1 = k then (k, v) :: rest else p :: jsSet rest k v

/-- Property read `o[k]`: first (unique) binding of the key, if any. -/
def jsLookup {α : Type} (k : String) : List (String × α) → Option α
  | [] => none
  | p :: rest => if p.1 = k then some p.2 else jsLookup k rest

/-- JS `String.prototype.toUpperCase` restricted to ASCII, which is all the
actor type codes use. -/
def jsToUpperChar (c : Char) : Char :=
  if 'a' ≤ c ∧ c ≤ 'z' then Char.ofNat (c.toNat - 32) else c

/-- Uppercase a whole string (JS `actorType.toUpperCase()`). -/
def jsToUpper (s : String) : String :=
  String.mk (s.data.map jsToUpperChar)

/-- Helper for `jsSplit`: accumulated current piece (reversed) plus the
remaining characters. -/
def jsSplitAux (sep : Char) : List Char → List Char → List String
  | acc, [] => [String.mk acc.reverse]
  | acc, c :: cs =>
    if c = sep then String.mk acc.reverse :: jsSplitAux sep [] cs
    else jsSplitAux sep (c :: acc) cs

/-- JS `s.split(sep)` for a single-character separator: splits at every
occurrence, keeping empty pieces, and always returns at least one piece. -/
def jsSplit (s : String) (sep : Char) : List String :=
  jsSplitAux sep [] s.data

/-- `ScaleftInput.prototype.getActorType`: switch on the uppercased type
code; the default branch returns the original (non-uppercased) code. -/
def getActorType (actorType : String) : String :=
  let u := jsToUpper actorType
  if u = "T" then "team"
  else if u = "U" then "user"
  else if u = "I" then "instance"
  else if u = "D" then "device"
  else if u = "DT" then "device type"
  else actorType

/-- `ScaleftInput.prototype.formatActor`: split the actor string on spaces,
split each token on `=` (every occurrence, as JS `split` does), and reduce
into an object mapping `getActorType(actorParts[0])` to `actorParts[1]`.
`actorParts[1]` is the piece between the first and second `=` and is JS
`undefined` (`none`) when the token has no `=`. -/
def formatActor (actorString : String) : List (String × Option String) :=
  (jsSplit actorString ' ').foldl
    (fun result a =>
      let actorParts := jsSplit a '='
      jsSet result (getActorType (actorParts.headD "")) actorParts[1]?)
    []

/-- Values stored in event objects: strings, numbers (instants as epoch
milliseconds), JS `undefined`, and the nested actor mapping produced by
`formatActor`. -/
inductive Val where
  | str (s : String)
  | num (n : Int)
  | undef
  | actor (o : List (String × Option String))
deriving DecidableEq

/-- A normalized (sink-ready) event object. -/
abbrev Obj := List (String × Val)

/-- A raw audit event from the API: `id`, `timestamp` (an instant, epoch
milliseconds — `new Date(ev.timestamp)` yields exactly this instant), and
the open `details` mapping (distinct keys, as JS object keys are). -/
structure RawEvent where
  id : Val
  timestamp : Int
  details : List (String × Val)
deriving DecidableEq

/-- The `actor` branch of `formatEvent`: the API's actor detail is a
string, which is decoded with `formatActor`; any other value is passed
through unchanged (a non-string would throw inside JS `split` and never
occurs in API data). -/
def formatActorVal : Val → Val
  | .str s => .actor (formatActor s)
  | v => v

/-- `ScaleftInput.prototype.formatEvent`: start from
`{id: ev.id, timestamp: ev.timestamp}` and then assign every `details` key
over it in order, decoding the `actor` key with `formatActor`. -/
def formatEvent (ev : RawEvent) : Obj :=
  ev.details.foldl
    (fun ret p => jsSet ret p.1 (if p.1 = "actor" then formatActorVal p.2 else p.2))
    [("id", ev.id), ("timestamp", Val.num ev.timestamp)]

/-- The JS values that flow through `sftInput.lastIndexTime` and the local
`indexTime`: the number `0` it is initialised with, a `Date`, or `null`. -/
inductive JsTime where
  | num (n : Int)
  | date (t : Int)
  | null
deriving DecidableEq

/-- JS `x.getTime()`: defined only on `Date` values; calling it on a number
or on `null` throws a `TypeError` (modelled as `none`). -/
def jsGetTime : JsTime → Option Int
  | .date t => some t
  | _ => none

/-- JS truthiness of a `lastIndexTime` / `indexTime` value: `null` is
falsy, any `Date` object is truthy, a number is truthy iff nonzero. -/
def jsTruthy : JsTime → Bool
  | .null => false
  | .date _ => true
  | .num n => n ≠ 0

/-- The only runtime error the embedded paths can raise. -/
inductive JsErr where
  | typeError
deriving DecidableEq

/-- The body of the `evts.forEach` loop in `emitToSplunk`, threading the
local `indexTime` (initially `null`) and the list of events written so
far.  Per event: build `evDate = new Date(ev.timestamp)`; set `indexTime`
on the first iteration (`if (!indexTime)`); then evaluate
`evDate.getTime() <= sftInput.lastIndexTime.getTime()` — the right-hand
call throws a `TypeError` when the watermark is not a `Date`, aborting the
loop with the events emitted so far; otherwise skip the event when it is at
or before the watermark, else format and write it. -/
def processEvents (w : JsTime) (idx : JsTime) (em : List Obj) :
    List RawEvent → Except (JsErr × List Obj) (JsTime × List Obj)
  | [] => .ok (idx, em)
  | ev :: rest =>
    let evDate := JsTime.date ev.timestamp
    let idx2 := if jsTruthy idx then idx else evDate
    match jsGetTime w with
    | none => .error (.typeError, em)
    | some wt =>
      if ev.timestamp ≤ wt then processEvents w idx2 em rest
      else processEvents w idx2 (em ++ [formatEvent ev]) rest

/-- Result of one `emitToSplunk` run: the in-memory `lastIndexTime` when
control leaves the function (normally or by a thrown error), the value
passed to `saveCheckpoint` if the save was reached, the events written to
the sink, and the thrown `TypeError` if any. -/
structure CycleResult where
  watermark : JsTime
  savedCheckpoint : Option Int
  emitted : List Obj
  error : Option JsErr
deriving DecidableEq

/-- The `emitToSplunk` task of `streamEvents`.  `evts` is `results.getEvents`
(`body.list`), with `none` standing for JS `null`/`undefined` — caught by
the `if (!evts)` guard — and `some l` an actual array, including the empty
one (`[]` is truthy in JS, so it passes the guard).  After the loop the
code assigns `sftInput.lastIndexTime = indexTime` and only then calls
`sftInput.lastIndexTime.getTime()` for the save, so with an empty array
the watermark is overwritten with `null` and the `getTime` call throws
before anything is saved. -/
def emitToSplunk (w : JsTime) (evts : Option (List RawEvent)) : CycleResult :=
  match evts with
  | none => ⟨w, none, [], none⟩
  | some l =>
    match processEvents w JsTime.null [] l with
    | .error (e, em) => ⟨w, none, em, some e⟩
    | .ok (idx, em) =>
      match jsGetTime idx with
      | none => ⟨idx, none, em, some .typeError⟩
      | some t => ⟨idx, some t, em, none⟩

/-- A transport-level error reported by the `request` library. -/
structure TransportErr where
  msg : String
deriving DecidableEq

/-- One poll cycle of `streamEvents` after the fetch: when `getEvents`
fails the final `async.auto` callback only logs and sleeps (no watermark
change, no save); otherwise `emitToSplunk` runs on the fetched list. -/
def pollCycle (w : JsTime) (fetched : Except TransportErr (Option (List RawEvent))) :
    CycleResult :=
  match fetched with
  | .error _ => ⟨w, none, [], none⟩
  | .ok evts => emitToSplunk w evts

/-- Start-of-run watermark in `streamEvents`: `loadCheckpoint` yields a
`Date` (`some t`) or `false` (`none`); only a truthy checkpoint is
assigned, so with no readable checkpoint `lastIndexTime` keeps the number
`0` from the constructor. -/
def initialWatermark (cp : Option Int) : JsTime :=
  match cp with
  | some t => JsTime.date t
  | none => JsTime.num 0

/-- Contents of a checkpoint file: either the decimal string of an integer
(epoch milliseconds), which is what `saveCheckpoint` writes, or a richer
absolute-instant (date-string) encoding of an instant `t`. -/
inductive CheckpointContent where
  | intStr (n : Int)
  | isoStr (t : Int)
deriving DecidableEq

/-- JS `new Date(fileContents).getTime()` on a checkpoint file: a full
date-string encoding parses to its instant; a decimal epoch-milliseconds
string (13 digits for contemporary instants) is not a date string and
yields an Invalid Date (`none`). -/
def jsNewDateContent : CheckpointContent → Option Int
  | .intStr _ => none
  | .isoStr t => some t

/-- JS `parseInt(fileContents, 10)`: the leading integer of an integer
string.  For a date-string encoding this branch of `loadCheckpoint` is
unreachable (`new Date` already succeeded), so it is modelled as `none`. -/
def jsParseIntContent : CheckpointContent → Option Int
  | .intStr n => some n
  | .isoStr _ => none

/-- `ScaleftInput.prototype.saveCheckpoint`: writes
`timestamp.toString()` — the decimal string of the epoch-milliseconds
number obtained from `lastIndexTime.getTime()`. -/
def saveCheckpoint (timestamp : Int) : CheckpointContent :=
  .intStr timestamp

/-- `ScaleftInput.prototype.loadCheckpoint`: a read failure (`none` file)
returns `false`; otherwise try `new Date(contents)`, and if that is an
Invalid Date fall back to `parseInt(contents, 10)`, returning `false`
when both fail. The result is the loaded instant. -/
def loadCheckpoint (file : Option CheckpointContent) : Option Int :=
  match file with
  | none => none
  | some c =>
    match jsNewDateContent c with
    | some t => some t
    | none =>
      match jsParseIntContent c with
      | some n => some n
      | none => none

/-- Mutable credential state of a `ScaleftInput` instance: `token` starts
as `some ""` and becomes `body.bearer_token` (possibly JS `undefined`,
i.e. `none`); `tokenExpiration` starts at `0`. -/
structure TokenState where
  token : Option String
  tokenExpiration : Int
deriving DecidableEq

/-- Response body of the `service_token` endpoint as the script sees it:
the HTTP status (never inspected by the code) and the optional
`bearer_token` field. -/
structure TokenBody where
  statusCode : Nat
  bearer_token : Option String
deriving DecidableEq

/-- Outcome of one `refreshToken` call: the error passed to the callback
(if any), the credential state afterwards, and how many network requests
were performed. -/
structure RefreshResult where
  outcome : Option TransportErr
  state : TokenState
  requests : Nat
deriving DecidableEq

/-- `ScaleftInput.prototype.refreshToken` (current revision).  If
`Date.now() < this.tokenExpiration` the callback fires immediately: no
request, no mutation.  Otherwise one request is made; a transport error is
passed to the callback with the state untouched; any response — its status
is never checked — sets `token = body.bearer_token` and
`tokenExpiration = Date.now() + 60 * 60 * 1000` (one hour).  `nowCheck` is
`Date.now()` at entry, `nowResp` is `Date.now()` when the response
arrives. -/
def refreshToken (nowCheck nowResp : Int) (st : TokenState)
    (net : Except TransportErr TokenBody) : RefreshResult :=
  if nowCheck < st.tokenExpiration then ⟨none, st, 0⟩
  else
    match net with
    | .error e => ⟨some e, st, 1⟩
    | .ok body => ⟨none, ⟨body.bearer_token, nowResp + 60 * 60 * 1000⟩, 1⟩

deriving instance DecidableEq for Except

/-- Outcome of one `getEvents` call: the callback value (error, or the
response's `body.list`), the credential state afterwards, and the number
of token and audit requests performed. -/
structure GetEventsResult where
  outcome : Except TransportErr (Option (List RawEvent))
  state : TokenState
  tokenRequests : Nat
  auditRequests : Nat
deriving DecidableEq

/-- `ScaleftInput.prototype.getEvents`: `async.auto` runs `refreshToken`
first; if it errors the dependent audit request never runs and the error
is passed through.  Otherwise one audit request is made and its error or
`body.list` is passed through.  (The query-string construction, including
`after_time`, does not affect these outcomes and is not modelled.) -/
def getEvents (nowCheck nowResp : Int) (st : TokenState)
    (tokenNet : Except TransportErr TokenBody)
    (auditNet : Except TransportErr (Option (List RawEvent))) : GetEventsResult :=
  let r := refreshToken nowCheck nowResp st tokenNet
  match r.outcome with
  | some e => ⟨.error e, r.state, r.requests, 0⟩
  | none =>
    match auditNet with
    | .error e => ⟨.error e, r.state, r.requests, 1⟩
    | .ok body => ⟨.ok body, r.state, r.requests, 1⟩

/-! Shared lemmas about the object model and the emit loop. -/

/-- Reading a key after a property assignment: the assigned key yields the
new value, any other key is unaffected. -/
theorem jsLookup_jsSet {α : Type} (o : List (String × α)) (k k' : String) (v : α) :
    jsLookup k (jsSet o k' v) = if k' = k then some v else jsLookup k o := by
  induction o with
  | nil => simp [jsSet, jsLookup]
  | cons p rest ih =>
    by_cases h1 : p.1 = k'
    · by_cases h2 : k' = k <;> simp [jsSet, jsLookup, h1, h2]
    · by_cases h2 : k' = k
      · subst h2
        simp [jsSet, jsLookup, h1, ih]
      · simp [jsSet, jsLookup, h1, ih, h2]

/-- Reading a key after a fold of property assignments: the result is the
value of the last assignment to that key, or the initial binding if the
key is never assigned. -/
theorem jsLookup_foldl_jsSet {α β : Type} (k : String) (key : β → String) (val : β → α) :
    ∀ (l : List β) (init : List (String × α)),
      jsLookup k (l.foldl (fun r b => jsSet r (key b) (val b)) init)
        = l.foldl (fun acc b => if key b = k then some (val b) else acc) (jsLookup k init)
  | [], _ => rfl
  | b :: rest, init => by
    simp only [List.foldl_cons]
    rw [jsLookup_foldl_jsSet k key val rest, jsLookup_jsSet]

/-- A fold of conditional updates over elements that never match the
condition leaves the accumulator alone. -/
theorem foldl_update_of_forall_ne {γ γ' : Type} (k : String) (g : String × γ → γ') :
    ∀ (l : List (String × γ)) (init : Option γ'),
      (∀ p ∈ l, p.1 ≠ k) →
      l.foldl (fun acc p => if p.1 = k then some (g p) else acc) init = init
  | [], _, _ => rfl
  | p :: rest, init, h => by
    have hp : p.1 ≠ k := h p (List.mem_cons_self p rest)
    simp only [List.foldl_cons, if_neg hp]
    exact foldl_update_of_forall_ne k g rest init fun q hq => h q (List.mem_cons_of_mem p hq)

/-- A fold of conditional updates over a list with distinct keys that
contains `(k, v)` ends with the update from `(k, v)`. -/
theorem foldl_update_of_mem {γ γ' : Type} (k : String) (g : String × γ → γ') :
    ∀ (l : List (String × γ)) (v : γ) (init : Option γ'),
      (k, v) ∈ l → (l.map Prod.fst).Nodup →
      l.foldl (fun acc p => if p.1 = k then some (g p) else acc) init = some (g (k, v))
  | p :: rest, v, init, hmem, hnd => by
    simp only [List.map_cons, List.nodup_cons] at hnd
    rcases List.mem_cons.mp hmem with hep | hmem2
    · subst hep
      simp only [List.foldl_cons, if_pos rfl]
      refine foldl_update_of_forall_ne k g rest _ fun q hq => ?_
      intro hqk
      have hql : q.1 ∈ rest.map Prod.fst := List.mem_map_of_mem Prod.fst hq
      rw [hqk] at hql
      exact hnd.1 hql
    · have hk : (k : String) ∈ rest.map Prod.fst := List.mem_map_of_mem Prod.fst hmem2
      have hp : p.1 ≠ k := fun hpk => hnd.1 (hpk ▸ hk)
      simp only [List.foldl_cons, if_neg hp]
      exact foldl_update_of_mem k g rest v init hmem2 hnd.2

/-- With a `Date` watermark the `forEach` body never throws: it finishes
with `indexTime` folded over the page and exactly the events strictly
newer than the watermark formatted and appended, in page order. -/
theorem processEvents_date (wt : Int) :
    ∀ (l : List RawEvent) (idx : JsTime) (em : List Obj),
      processEvents (JsTime.date wt) idx em l
        = .ok (l.foldl (fun i ev => if jsTruthy i then i else JsTime.date ev.timestamp) idx,
               em ++ (l.filter (fun ev => wt < ev.timestamp)).map formatEvent)
  | [], idx, em => by simp [processEvents]
  | ev :: rest, idx, em => by
    simp only [processEvents, jsGetTime, List.foldl_cons, List.filter_cons]
    by_cases h : ev.timestamp ≤ wt
    · have h2 : ¬ (wt < ev.timestamp) := not_lt.mpr h
      rw [if_pos h, processEvents_date wt rest]
      simp [h2]
    · have h2 : wt < ev.timestamp := not_le.mp h
      rw [if_neg h, processEvents_date wt rest]
      simp [h2]

/-- Once `indexTime` holds a truthy value the `if (!indexTime)` update
never changes it again. -/
theorem foldl_indexTime_of_truthy :
    ∀ (l : List RawEvent) (i : JsTime), jsTruthy i = true →
      l.foldl (fun i ev => if jsTruthy i then i else JsTime.date ev.timestamp) i = i
  | [], _, _ => rfl
  | ev :: rest, i, h => by
    simp only [List.foldl_cons, h, if_true]
    exact foldl_indexTime_of_truthy rest i h

/-- Splitting skips over a separator-free block, accumulating it into the
current piece. -/
theorem jsSplitAux_append (sep : Char) :
    ∀ (xs acc ys : List Char), (∀ c ∈ xs, c ≠ sep) →
      jsSplitAux sep acc (xs ++ ys) = jsSplitAux sep (xs.reverse ++ acc) ys
  | [], acc, ys, _ => by simp
  | c :: xs, acc, ys, h => by
    have hc : c ≠ sep := h c (List.mem_cons_self c xs)
    simp only [List.cons_append, jsSplitAux, if_neg hc, List.append_eq]
    rw [jsSplitAux_append sep xs (c :: acc) ys fun q hq => h q (List.mem_cons_of_mem c hq)]
    simp

/-- Splitting a string that starts with a separator-free block `x`
followed by the separator yields `x` as the first piece. -/
theorem jsSplitAux_block (sep : Char) (x : String) (ys : List Char)
    (hx : ∀ c ∈ x.data, c ≠ sep) :
    jsSplitAux sep [] (x.data ++ sep :: ys) = x :: jsSplitAux sep [] ys := by
  rw [jsSplitAux_append sep x.data [] (sep :: ys) hx]
  simp [jsSplitAux]

/-! Claim theorems. -/

/-- C1 counterexample: a successful poll cycle (no error, fetch returned
one event) with watermark `Date(100)` and a page whose newest event has
timestamp `90` persists the watermark `90`, which is strictly below the
watermark in effect at the start of the cycle — the persisted watermark is
not non-decreasing. -/
theorem watermark_rewind_cex :
    (pollCycle (JsTime.date 100) (.ok (some [⟨Val.str "e1", 90, []⟩]))).error = none
  ∧ (pollCycle (JsTime.date 100) (.ok (some [⟨Val.str "e1", 90, []⟩]))).savedCheckpoint = some 90
  ∧ ¬ ((100 : Int) ≤ 90) := by decide

/-- C1 amended: in every successful poll cycle with a `Date` watermark and
a non-empty page, the cycle completes without error and the persisted (and
in-memory) watermark equals the timestamp of the first (newest) event of
the page, regardless of how that compares with the current watermark;
consequently the watermark is non-decreasing exactly when the first
event's timestamp is at or after the current watermark, and is rewound
otherwise. -/
theorem watermark_equals_first_event (wt : Int) (e : RawEvent) (rest : List RawEvent) :
    (pollCycle (JsTime.date wt) (.ok (some (e :: rest)))).error = none
  ∧ (pollCycle (JsTime.date wt) (.ok (some (e :: rest)))).savedCheckpoint = some e.timestamp
  ∧ (pollCycle (JsTime.date wt) (.ok (some (e :: rest)))).watermark = JsTime.date e.timestamp
  ∧ (wt ≤ e.timestamp →
      ∃ t, (pollCycle (JsTime.date wt) (.ok (some (e :: rest)))).savedCheckpoint = some t
            ∧ wt ≤ t) := by
  have hidx : (e :: rest).foldl
      (fun i ev => if jsTruthy i then i else JsTime.date ev.timestamp) JsTime.null
      = JsTime.date e.timestamp := by
    rw [List.foldl_cons]
    simp only [jsTruthy, Bool.false_eq_true, if_false]
    exact foldl_indexTime_of_truthy rest _ rfl
  have hres : pollCycle (JsTime.date wt) (.ok (some (e :: rest)))
      = ⟨JsTime.date e.timestamp, some e.timestamp,
         ((e :: rest).filter (fun ev => wt < ev.timestamp)).map formatEvent, none⟩ := by
    simp only [pollCycle, emitToSplunk, processEvents_date, hidx, jsGetTime, List.nil_append]
  rw [hres]
  exact ⟨rfl, rfl, rfl, fun h => ⟨e.timestamp, rfl, h⟩⟩

/-- C1 witness: concrete instance of the amended claim at watermark `100`
and a single event at `110`. -/
theorem watermark_equals_first_event_witness :
    ∃ t, (pollCycle (JsTime.date 100)
            (.ok (some [⟨Val.str "e1", 110, []⟩]))).savedCheckpoint = some t
          ∧ (100 : Int) ≤ t :=
  (watermark_equals_first_event 100 ⟨Val.str "e1", 110, []⟩ []).2.2.2 (by decide)

/-- C2: the code at the failing input.  A successful fetch whose
`body.list` is the empty array passes the `if (!evts)` guard (an empty JS
array is truthy), so the cycle assigns `null` to the in-memory watermark —
a watermark change — and then throws a `TypeError` calling `.getTime()` on
`null`, so nothing is saved and the cycle dies; only a `null`/`undefined`
`body.list` takes the intended no-op path.  The claim says an empty
sequence leaves both watermarks untouched with no assignment. -/
theorem empty_page_crash :
    pollCycle (JsTime.date 100) (.ok (some []))
      = ⟨JsTime.null, none, [], some JsErr.typeError⟩
  ∧ pollCycle (JsTime.date 100) (.ok none)
      = ⟨JsTime.date 100, none, [], none⟩ := by decide

/-- C3: the code at the failing input.  On a first-ever run the watermark
keeps the constructor's number `0`, and on the first event of the page the
comparison `evDate.getTime() <= sftInput.lastIndexTime.getTime()` calls
`.getTime()` on the number `0`, which throws a `TypeError`: no event is
emitted and no watermark is saved, instead of all events being emitted
with the watermark becoming the newest timestamp. -/
theorem first_run_crash :
    initialWatermark (loadCheckpoint none) = JsTime.num 0
  ∧ pollCycle (JsTime.num 0)
        (.ok (some [⟨Val.str "e1", 100, []⟩, ⟨Val.str "e2", 50, []⟩]))
      = ⟨JsTime.num 0, none, [], some JsErr.typeError⟩ := by decide

/-- C4: with an existing `Date` watermark `W`, a cycle emits exactly the
fetched events whose timestamp is strictly greater than `W`, formatted, in
the order returned by the fetch, dropping events at or before `W`; in
particular for a page with timestamps `[110, 90, 50]` and `W = 100` only
the event at `110` is emitted and the watermark becomes `110`. -/
theorem strict_filter_emission :
    (∀ (wt : Int) (l : List RawEvent),
        (pollCycle (JsTime.date wt) (.ok (some l))).emitted
          = (l.filter (fun ev => wt < ev.timestamp)).map formatEvent)
  ∧ pollCycle (JsTime.date 100)
        (.ok (some [⟨Val.str "e1", 110, []⟩, ⟨Val.str "e2", 90, []⟩,
                    ⟨Val.str "e3", 50, []⟩]))
      = ⟨JsTime.date 110, some 110, [formatEvent ⟨Val.str "e1", 110, []⟩], none⟩ := by
  refine ⟨?_, by decide⟩
  intro wt l
  simp only [pollCycle, emitToSplunk, processEvents_date, List.nil_append]
  cases jsGetTime
      (l.foldl (fun i ev => if jsTruthy i then i else JsTime.date ev.timestamp)
        JsTime.null) <;> rfl

/-- C5: checkpoint round-trip.  Saving a watermark writes the decimal
epoch-milliseconds string, and loading accepts and normalizes to the same
instant both that legacy integer encoding and the richer absolute-instant
encoding. -/
theorem checkpoint_round_trip (x : Int) :
    loadCheckpoint (some (saveCheckpoint x)) = some x
  ∧ loadCheckpoint (some (CheckpointContent.intStr x)) = some x
  ∧ loadCheckpoint (some (CheckpointContent.isoStr x)) = some x :=
  ⟨rfl, rfl, rfl⟩

/-- C6: when the credential's expiry is in the future, `refreshToken`
returns it unchanged with no network request; otherwise it performs one
request and, on a response, sets the expiry to issue-time plus exactly one
hour (`60 * 60 * 1000` milliseconds); hence two consecutive calls whose
second falls inside the new validity window perform exactly one network
refresh in total and leave the refreshed credential unchanged. -/
theorem token_reuse_one_refresh :
    (∀ (n n2 : Int) (st : TokenState) (net : Except TransportErr TokenBody),
        n < st.tokenExpiration → refreshToken n n2 st net = ⟨none, st, 0⟩)
  ∧ (∀ (n n2 : Int) (st : TokenState) (body : TokenBody),
        st.tokenExpiration ≤ n →
        refreshToken n n2 st (.ok body)
          = ⟨none, ⟨body.bearer_token, n2 + 60 * 60 * 1000⟩, 1⟩)
  ∧ (∀ (t0 t1 t2 t3 : Int) (st : TokenState) (body : TokenBody)
        (net2 : Except TransportErr TokenBody),
        st.tokenExpiration ≤ t0 → t2 < t1 + 60 * 60 * 1000 →
        (refreshToken t0 t1 st (.ok body)).requests
            + (refreshToken t2 t3 (refreshToken t0 t1 st (.ok body)).state net2).requests
            = 1
          ∧ (refreshToken t2 t3 (refreshToken t0 t1 st (.ok body)).state net2).state
              = (refreshToken t0 t1 st (.ok body)).state) := by
  refine ⟨?_, ?_, ?_⟩
  · intro n n2 st net h
    simp [refreshToken, h]
  · intro n n2 st body h
    simp [refreshToken, not_lt.mpr h]
  · intro t0 t1 t2 t3 st body net2 h1 h2
    have hr1 : refreshToken t0 t1 st (.ok body)
        = ⟨none, ⟨body.bearer_token, t1 + 60 * 60 * 1000⟩, 1⟩ := by
      simp [refreshToken, not_lt.mpr h1]
    rw [hr1]
    have h2n : t2 < t1 + 3600000 := by omega
    simp [refreshToken, h2n]

/-- C6 witness: concrete instances — a fresh credential is reused with no
request, an expired one is refreshed once to a one-hour window, and the
pair of calls performs exactly one request. -/
theorem token_reuse_one_refresh_witness :
    refreshToken 0 0 ⟨some "tok", 5⟩ (.ok ⟨200, some "b"⟩) = ⟨none, ⟨some "tok", 5⟩, 0⟩
  ∧ refreshToken 5 6 ⟨some "tok", 5⟩ (.ok ⟨200, some "b"⟩)
      = ⟨none, ⟨some "b", 6 + 60 * 60 * 1000⟩, 1⟩
  ∧ (refreshToken 5 6 ⟨some "tok", 5⟩ (.ok ⟨200, some "b"⟩)).requests
      + (refreshToken 7 8 (refreshToken 5 6 ⟨some "tok", 5⟩ (.ok ⟨200, some "b"⟩)).state
          (.ok ⟨200, some "c"⟩)).requests = 1 :=
  ⟨token_reuse_one_refresh.1 0 0 ⟨some "tok", 5⟩ (.ok ⟨200, some "b"⟩) (by decide),
   token_reuse_one_refresh.2.1 5 6 ⟨some "tok", 5⟩ ⟨200, some "b"⟩ (by decide),
   (token_reuse_one_refresh.2.2 5 6 7 8 ⟨some "tok", 5⟩ ⟨200, some "b"⟩
      (.ok ⟨200, some "c"⟩) (by decide) (by decide)).1⟩

/-- C7 counterexample: a non-success token response (status `401`, no
`bearer_token`) is not detected as a failure — the status is never
inspected.  With an expired credential, `getEvents` mutates the credential
state (token becomes `undefined`, expiry advances an hour) and proceeds to
perform the audit fetch, contradicting the claim that every failed token
request leaves state unmutated and aborts the cycle before the fetch. -/
theorem non_success_token_response_cex :
    getEvents 5 7 ⟨some "", 0⟩ (.ok ⟨401, none⟩) (.ok (some []))
      = ⟨.ok (some []), ⟨none, 7 + 60 * 60 * 1000⟩, 1, 1⟩
  ∧ (⟨none, 7 + 60 * 60 * 1000⟩ : TokenState) ≠ (⟨some "", 0⟩ : TokenState) := by
  decide

/-- C7 amended: for every token request that fails with a network
transport error, the refresh fails with that error passed through, no
credential state is mutated, and the audit fetch is not performed in that
cycle; the cycle then changes no watermark and emits nothing.  (A
non-success HTTP response from the token endpoint is not detected: the
code only checks the transport error.) -/
theorem transport_error_aborts_cycle (t0 t1 : Int) (st : TokenState) (e : TransportErr)
    (auditNet : Except TransportErr (Option (List RawEvent)))
    (hexp : st.tokenExpiration ≤ t0) :
    getEvents t0 t1 st (.error e) auditNet = ⟨.error e, st, 1, 0⟩
  ∧ (∀ w : JsTime, pollCycle w (.error e) = ⟨w, none, [], none⟩) := by
  constructor
  · simp [getEvents, refreshToken, not_lt.mpr hexp]
  · intro w
    rfl

/-- C7 witness: concrete instance of the amended claim for an expired
credential and a transport error. -/
theorem transport_error_aborts_cycle_witness :
    getEvents 5 7 ⟨some "", 0⟩ (.error ⟨"connection refused"⟩) (.ok (some []))
      = ⟨.error ⟨"connection refused"⟩, ⟨some "", 0⟩, 1, 0⟩ :=
  (transport_error_aborts_cycle 5 7 ⟨some "", 0⟩ ⟨"connection refused"⟩
    (.ok (some [])) (by decide)).1

/-- Unfolding of string append on the underlying character lists. -/
theorem data_of_append (a b : String) : (a ++ b).data = a.data ++ b.data := rfl

/-- C8: actor decoding maps each token's left-hand type code through the
fixed table case-insensitively (`u` and `dt` decode like `U` and `DT`),
passes an unrecognized code through as-is, and resolves duplicate codes
last-wins; in full generality, the value the decoded mapping holds at any
key is the one contributed by the last token whose translated code is that
key. -/
theorem actor_decoding_table_last_wins :
    formatActor "U=alice T=eng" = [("user", some "alice"), ("team", some "eng")]
  ∧ formatActor "Q=xyz" = [("Q", some "xyz")]
  ∧ formatActor "u=alice dt=mac" = [("user", some "alice"), ("device type", some "mac")]
  ∧ formatActor "U=a U=b" = [("user", some "b")]
  ∧ (∀ s k : String,
      jsLookup k (formatActor s)
        = (jsSplit s ' ').foldl
            (fun acc a =>
              if getActorType ((jsSplit a '=').headD "") = k
              then some ((jsSplit a '=')[1]?) else acc)
            none) := by
  refine ⟨by decide, by decide, by decide, by decide, fun s k => ?_⟩
  exact jsLookup_foldl_jsSet k (fun a => getActorType ((jsSplit a '=').headD ""))
    (fun a => (jsSplit a '=')[1]?) (jsSplit s ' ') []

/-- C9 counterexample: for the token `U=a=b` the decoded value is `a`, the
segment between the first and second `=`, not the entire substring `a=b`
after the first `=` as the claim states. -/
theorem actor_value_second_segment_cex :
    formatActor "U=a=b" = [("user", some "a")]
  ∧ jsLookup "user" (formatActor "U=a=b") ≠ some (some "a=b") := by decide

/-- C9 amended: each token is split on every `=` (JS `split` has no
limit), and the decoded value is the segment between the first and second
`=` — anything after the second `=` is discarded; for a token with a
single `=` this is the entire substring after it.  The general clause
shows piece number 1 of splitting `c=v1=v2` is exactly `v1` whenever `c`
and `v1` contain no `=`. -/
theorem actor_value_middle_segment :
    formatActor "U=a=b" = [("user", some "a")]
  ∧ formatActor "U=ab" = [("user", some "ab")]
  ∧ (∀ c v1 v2 : String,
      (∀ ch ∈ c.data, ch ≠ '=') → (∀ ch ∈ v1.data, ch ≠ '=') →
      (jsSplit (c ++ "=" ++ v1 ++ "=" ++ v2) '=')[1]? = some v1) := by
  refine ⟨by decide, by decide, fun c v1 v2 hc h1 => ?_⟩
  have hdata : (c ++ "=" ++ v1 ++ "=" ++ v2).data
      = c.data ++ '=' :: (v1.data ++ '=' :: v2.data) := by
    simp [data_of_append]
  have hsplit : jsSplit (c ++ "=" ++ v1 ++ "=" ++ v2) '='
      = c :: v1 :: jsSplitAux '=' [] v2.data := by
    show jsSplitAux '=' [] (c ++ "=" ++ v1 ++ "=" ++ v2).data
        = c :: v1 :: jsSplitAux '=' [] v2.data
    rw [hdata, jsSplitAux_block '=' c _ hc, jsSplitAux_block '=' v1 _ h1]
  rw [hsplit]
  simp

/-- C9 amended witness: concrete instance of the general clause at
`c = "U"`, `v1 = "a"`, `v2 = "b"`. -/
theorem actor_value_middle_segment_witness :
    (jsSplit ("U" ++ "=" ++ "a" ++ "=" ++ "b") '=')[1]? = some "a" :=
  actor_value_middle_segment.2.2 "U" "a" "b" (by decide) (by decide)

/-- C10: normalization writes the top-level `id` and `timestamp` fields
first and then assigns every `details` key over them, so whenever the
`details` mapping (distinct keys, as JS object keys are) contains a key
literally named `id` or `timestamp`, the normalized event's field holds
the value taken from `details`, silently shadowing the raw event's own
top-level value, whatever it was. -/
theorem details_shadow_top_level (ev : RawEvent) (v : Val)
    (hnd : (ev.details.map Prod.fst).Nodup) :
    (("id", v) ∈ ev.details → jsLookup "id" (formatEvent ev) = some v)
  ∧ (("timestamp", v) ∈ ev.details → jsLookup "timestamp" (formatEvent ev) = some v) := by
  have hfold : ∀ k : String,
      jsLookup k (formatEvent ev)
        = ev.details.foldl
            (fun acc p =>
              if p.1 = k then some (if p.1 = "actor" then formatActorVal p.2 else p.2)
              else acc)
            (jsLookup k [("id", ev.id), ("timestamp", Val.num ev.timestamp)]) :=
    fun k =>
      jsLookup_foldl_jsSet (α := Val) (β := String × Val) k Prod.fst
        (fun p => if p.1 = "actor" then formatActorVal p.2 else p.2) ev.details
        [("id", ev.id), ("timestamp", Val.num ev.timestamp)]
  constructor
  · intro hmem
    rw [hfold "id",
      foldl_update_of_mem "id"
        (fun p => if p.1 = "actor" then formatActorVal p.2 else p.2)
        ev.details v _ hmem hnd]
    rfl
  · intro hmem
    rw [hfold "timestamp",
      foldl_update_of_mem "timestamp"
        (fun p => if p.1 = "actor" then formatActorVal p.2 else p.2)
        ev.details v _ hmem hnd]
    rfl

/-- C10 witness: a raw event whose own id is `"orig"` but whose details
carry `id = "fromDetails"` normalizes with the details value in the `id`
field. -/
theorem details_shadow_top_level_witness :
    jsLookup "id" (formatEvent ⟨Val.str "orig", 5, [("id", Val.str "fromDetails")]⟩)
      = some (Val.str "fromDetails") :=
  (details_shadow_top_level ⟨Val.str "orig", 5, [("id", Val.str "fromDetails")]⟩
    (Val.str "fromDetails") (by decide)).1 (by decide)

end SftAudit
